import Mathlib

/-!
Verification of the Amount value type from src/structures/vroom/amount.h.

The header defines a wrapper Amount owning one of two variants:
AmountEmpty (zero tracked dimensions, every operation trivial) and
AmountDims (a vector of Capacity scalars, elementwise operations and a
lexicographic strict order).  Each binary operation on AmountDims begins
with an assertion that both operand vectors have the same length; we
embed that assertion as an Option result, where none marks the
precondition violation (the assertion firing, undefined behavior in a
release build) and some r the value computed when the precondition
holds.  Vectors become Lean lists, in-place mutation becomes returning
the new value, and the exclusive-ownership copy semantics of the C++
wrapper become ordinary value semantics.
-/

/-- Modelled from the spec: the scalar type Capacity is defined in
structures/typedefs.h, which is outside the given excerpt.  The spec
describes it as an integral quantity per dimension whose range and
overflow policy are out of scope, so we model it as the integers. -/
abbrev Capacity := Int

namespace AmountDims

/-- AmountDims::is_less, lines 55 to 77: return false on an empty
vector; otherwise scan indices 0 to last_rank - 1, returning true at the
first index where the left element is smaller and false at the first
index where it is larger; if no earlier index decides, compare the
elements at last_rank with a strict less-than.  The index loop with its
two early returns is rendered as structural recursion on the list. -/
def is_less : List Capacity → List Capacity → Bool
  | [], _ => false
  | [x], y :: _ => decide (x < y)
  | x :: x2 :: xs, y :: ys =>
      if x < y then true
      else if x > y then false
      else is_less (x2 :: xs) ys
  | _, [] => false

/-- AmountDims::is_equal, lines 79 to 91: return false at the first
index where the two vectors differ, true when the loop completes. -/
def is_equal : List Capacity → List Capacity → Bool
  | [], _ => true
  | x :: xs, y :: ys => decide (x = y) && is_equal xs ys
  | _ :: _, [] => true

/-- AmountDims::add, lines 93 to 101: elementwise in-place addition
over all indices, here returning the updated vector. -/
def add (a b : List Capacity) : List Capacity :=
  List.zipWith (fun x y => x + y) a b

/-- AmountDims::sub, lines 103 to 111: elementwise in-place
subtraction over all indices, here returning the updated vector. -/
def sub (a b : List Capacity) : List Capacity :=
  List.zipWith (fun x y => x - y) a b

/-- AmountDims::update_to_maxed, lines 113 to 121: elementwise
in-place maximum over all indices, here returning the updated vector. -/
def update_to_maxed (a b : List Capacity) : List Capacity :=
  List.zipWith (fun x y => max x y) a b

/-- AmountDims::set_zero, lines 123 to 126: std::fill of the whole
vector with 0, here returning the updated vector. -/
def set_zero (a : List Capacity) : List Capacity :=
  a.map (fun _ => (0 : Capacity))

/-- AmountDims constructor from a size, lines 41 to 44: a vector of
that many zeros. -/
def ofSize (n : Nat) : List Capacity :=
  List.replicate n 0

end AmountDims

/-- The closed set of AmountImpl variants: AmountEmpty carries no data,
AmountDims carries its elems vector. -/
inductive AmountImpl : Type where
  | empty : AmountImpl
  | dims (elems : List Capacity) : AmountImpl
deriving DecidableEq, Repr

namespace AmountImpl

/-- Equal-shape test between two variants: two AmountEmpty values are
always compatible, two AmountDims values are compatible when the elems
vectors have equal length, and mixed variants are never compatible
(the static_cast in the AmountDims methods makes mixing undefined). -/
def sameShape : AmountImpl → AmountImpl → Bool
  | .empty, .empty => true
  | .dims a, .dims b => a.length == b.length
  | _, _ => false

/-- Virtual dispatch of is_less: AmountEmpty::is_less ignores other and
returns false; AmountDims::is_less asserts equal lengths (none when the
assertion fires) before the lexicographic scan; an AmountDims receiver
with an AmountEmpty argument hits the undefined static_cast. -/
def is_less : AmountImpl → AmountImpl → Option Bool
  | .empty, _ => some false
  | .dims a, .dims b =>
      if a.length = b.length then some (AmountDims.is_less a b) else none
  | .dims _, .empty => none

/-- Virtual dispatch of is_equal: AmountEmpty::is_equal ignores other
and returns true; AmountDims::is_equal asserts equal lengths before the
elementwise scan. -/
def is_equal : AmountImpl → AmountImpl → Option Bool
  | .empty, _ => some true
  | .dims a, .dims b =>
      if a.length = b.length then some (AmountDims.is_equal a b) else none
  | .dims _, .empty => none

/-- Virtual dispatch of add: a no-op on AmountEmpty; on AmountDims the
equal-length assertion guards the elementwise addition. -/
def add : AmountImpl → AmountImpl → Option AmountImpl
  | .empty, _ => some .empty
  | .dims a, .dims b =>
      if a.length = b.length then some (.dims (AmountDims.add a b)) else none
  | .dims _, .empty => none

/-- Virtual dispatch of sub: a no-op on AmountEmpty; on AmountDims the
equal-length assertion guards the elementwise subtraction. -/
def sub : AmountImpl → AmountImpl → Option AmountImpl
  | .empty, _ => some .empty
  | .dims a, .dims b =>
      if a.length = b.length then some (.dims (AmountDims.sub a b)) else none
  | .dims _, .empty => none

/-- Virtual dispatch of update_to_maxed: a no-op on AmountEmpty; on
AmountDims the equal-length assertion guards the elementwise maximum. -/
def update_to_maxed : AmountImpl → AmountImpl → Option AmountImpl
  | .empty, _ => some .empty
  | .dims a, .dims b =>
      if a.length = b.length then
        some (.dims (AmountDims.update_to_maxed a b))
      else none
  | .dims _, .empty => none

/-- Virtual dispatch of set_zero: a no-op on AmountEmpty, a fill with
zero on AmountDims.  It takes no second operand and cannot fail. -/
def set_zero : AmountImpl → AmountImpl
  | .empty => .empty
  | .dims a => .dims (AmountDims.set_zero a)

end AmountImpl

/-- The Amount wrapper, lines 169 to 231: owns exactly one variant.
Deep copy on duplication is ordinary value semantics here. -/
structure Amount where
  m_impl : AmountImpl
deriving DecidableEq, Repr

namespace Amount

/-- Default constructor, lines 172 to 175: makes an AmountEmpty. -/
def default : Amount := ⟨AmountImpl.empty⟩

/-- Construction from a dimension count, through the AmountDims size
constructor: a Dimensioned amount of that many zeros. -/
def ofSize (n : Nat) : Amount := ⟨AmountImpl.dims (AmountDims.ofSize n)⟩

/-- Construction from an explicit vector of values, through the
AmountDims vector constructor: stores exactly that content. -/
def ofElems (l : List Capacity) : Amount := ⟨AmountImpl.dims l⟩

/-- Compound assignment operator plus-equals, lines 192 to 196:
delegates to the owned variant add. -/
def addAssign (a b : Amount) : Option Amount :=
  (AmountImpl.add a.m_impl b.m_impl).map Amount.mk

/-- Compound assignment operator minus-equals, lines 198 to 202:
delegates to the owned variant sub. -/
def subAssign (a b : Amount) : Option Amount :=
  (AmountImpl.sub a.m_impl b.m_impl).map Amount.mk

/-- Equality operator, lines 204 to 208: delegates to is_equal. -/
def beq (a b : Amount) : Option Bool :=
  AmountImpl.is_equal a.m_impl b.m_impl

/-- Non-strict comparison operator, lines 210 to 213: is_less short
circuited by logical-or with is_equal, so is_equal is evaluated only
when is_less came back false. -/
def le (a b : Amount) : Option Bool :=
  match AmountImpl.is_less a.m_impl b.m_impl with
  | none => none
  | some true => some true
  | some false => AmountImpl.is_equal a.m_impl b.m_impl

/-- Strict-precedence operator, lines 215 to 218: delegates to
is_less. -/
def ll (a b : Amount) : Option Bool :=
  AmountImpl.is_less a.m_impl b.m_impl

/-- Wrapper update_to_maxed, lines 220 to 223: delegates to the owned
variant update_to_maxed. -/
def update_to_maxed (a b : Amount) : Option Amount :=
  (AmountImpl.update_to_maxed a.m_impl b.m_impl).map Amount.mk

/-- Wrapper get_zero, lines 225 to 230: copies self and calls set_zero
on the copy, leaving self untouched. -/
def get_zero (a : Amount) : Amount :=
  ⟨AmountImpl.set_zero a.m_impl⟩

/-- Free operator plus, lines 236 to 241: copies the left operand and
applies the compound assignment with the right operand. -/
def addOp (lhs rhs : Amount) : Option Amount :=
  Amount.addAssign lhs rhs

/-- Free operator minus, lines 243 to 248: copies the left operand and
applies the compound assignment with the right operand. -/
def subOp (lhs rhs : Amount) : Option Amount :=
  Amount.subAssign lhs rhs

end Amount

namespace AmountFacts

lemma is_equal_iff (x y : List Capacity) (h : x.length = y.length) :
    AmountDims.is_equal x y = true ↔ x = y := by
  induction x generalizing y with
  | nil =>
    cases y with
    | nil => simp [AmountDims.is_equal]
    | cons b ys => simp at h
  | cons a xs ih =>
    cases y with
    | nil => simp at h
    | cons b ys =>
      simp only [AmountDims.is_equal, Bool.and_eq_true, decide_eq_true_eq,
        List.cons.injEq]
      rw [ih ys (by simpa using h)]

lemma is_equal_refl (x : List Capacity) : AmountDims.is_equal x x = true :=
  (is_equal_iff x x rfl).mpr rfl

lemma is_less_irrefl (x : List Capacity) : AmountDims.is_less x x = false := by
  induction x with
  | nil => rfl
  | cons a xs ih =>
    cases xs with
    | nil => simp [AmountDims.is_less]
    | cons a2 xs2 =>
      simpa [AmountDims.is_less] using ih

lemma is_less_flip (x y : List Capacity) (h : x.length = y.length)
    (hne : x ≠ y) :
    AmountDims.is_less y x = !AmountDims.is_less x y := by
  induction x generalizing y with
  | nil =>
    cases y with
    | nil => exact absurd rfl hne
    | cons b ys => simp at h
  | cons a xs ih =>
    cases y with
    | nil => simp at h
    | cons b ys =>
      cases xs with
      | nil =>
        cases ys with
        | nil =>
          have hab : a ≠ b := by simpa using hne
          simp only [AmountDims.is_less]
          rcases lt_trichotomy a b with hlt | heq | hgt
          · simp [hlt, not_lt.mpr hlt.le]
          · exact absurd heq hab
          · simp [hgt, not_lt.mpr hgt.le]
        | cons b2 ys2 => simp at h
      | cons a2 xs2 =>
        cases ys with
        | nil => simp at h
        | cons b2 ys2 =>
          simp only [AmountDims.is_less]
          rcases lt_trichotomy a b with hlt | heq | hgt
          · simp [hlt, not_lt.mpr hlt.le, gt_iff_lt]
          · subst heq
            have htail : (a2 :: xs2) ≠ (b2 :: ys2) := by
              intro hcontra
              exact hne (by rw [hcontra])
            simp only [lt_irrefl, if_false, gt_iff_lt]
            exact ih (b2 :: ys2) (by simpa using h) htail
          · simp [hgt, not_lt.mpr hgt.le, gt_iff_lt]

end AmountFacts

namespace AmountFacts

lemma is_less_first_diff (x y : List Capacity) (h : x.length = y.length)
    (i : Nat) (hi : i + 1 < x.length)
    (hpre : ∀ j, j < i → x.getD j 0 = y.getD j 0)
    (hne : x.getD i 0 ≠ y.getD i 0) :
    AmountDims.is_less x y = decide (x.getD i 0 < y.getD i 0) := by
  induction x generalizing y i with
  | nil => simp at hi
  | cons a xs ih =>
    cases xs with
    | nil =>
      simp only [List.length_cons, List.length_nil] at hi
      omega
    | cons a2 xs2 =>
      cases y with
      | nil => simp at h
      | cons b ys =>
        cases i with
        | zero =>
          have hab : a ≠ b := by simpa using hne
          simp only [AmountDims.is_less, List.getD_cons_zero]
          rcases lt_trichotomy a b with hlt | heq | hgt
          · simp [hlt]
          · exact absurd heq hab
          · simp [hgt, not_lt.mpr hgt.le, gt_iff_lt]
        | succ i2 =>
          have hab : a = b := by
            have := hpre 0 (Nat.succ_pos i2)
            simpa using this
          subst hab
          simp only [AmountDims.is_less, lt_irrefl, if_false, gt_iff_lt,
            List.getD_cons_succ]
          cases ys with
          | nil => simp at h
          | cons b2 ys2 =>
            exact ih (b2 :: ys2) (by simpa using h) i2 (by simpa using hi)
              (fun j hj => by
                have := hpre (j + 1) (Nat.succ_lt_succ hj)
                simpa using this)
              (by simpa using hne)

lemma is_less_last (x y : List Capacity) (h : x.length = y.length)
    (hx : x ≠ [])
    (hpre : ∀ j, j + 1 < x.length → x.getD j 0 = y.getD j 0) :
    AmountDims.is_less x y =
      decide (x.getD (x.length - 1) 0 < y.getD (y.length - 1) 0) := by
  induction x generalizing y with
  | nil => exact absurd rfl hx
  | cons a xs ih =>
    cases y with
    | nil => simp at h
    | cons b ys =>
      cases xs with
      | nil =>
        cases ys with
        | nil => simp [AmountDims.is_less]
        | cons b2 ys2 => simp at h
      | cons a2 xs2 =>
        have hab : a = b := by
          have := hpre 0 (by simp)
          simpa using this
        subst hab
        cases ys with
        | nil => simp at h
        | cons b2 ys2 =>
          simp only [AmountDims.is_less, lt_irrefl, if_false, gt_iff_lt]
          rw [ih (b2 :: ys2) (by simpa using h) (by simp)
            (fun j hj => by
              have := hpre (j + 1) (by simpa using Nat.succ_lt_succ hj)
              simpa using this)]
          have hlx : (a :: a2 :: xs2).length - 1 = (a2 :: xs2).length := by simp
          have hly : (a :: b2 :: ys2).length - 1 = (b2 :: ys2).length := by simp
          congr 1

lemma length_add (x y : List Capacity) (h : x.length = y.length) :
    (AmountDims.add x y).length = x.length := by
  simp [AmountDims.add, h]

lemma add_sub_cancel (x y : List Capacity) (h : x.length = y.length) :
    AmountDims.sub (AmountDims.add x y) y = x := by
  induction x generalizing y with
  | nil => simp [AmountDims.add, AmountDims.sub]
  | cons a xs ih =>
    cases y with
    | nil => simp at h
    | cons b ys =>
      simp only [AmountDims.add, AmountDims.sub, List.zipWith_cons_cons,
        List.cons.injEq]
      exact ⟨by ring, ih ys (by simpa using h)⟩

lemma zero_add_self (x : List Capacity) :
    AmountDims.add (AmountDims.set_zero x) x = x := by
  induction x with
  | nil => rfl
  | cons a xs ih =>
    simp only [AmountDims.set_zero, AmountDims.add, List.map_cons,
      List.zipWith_cons_cons, List.cons.injEq] at *
    exact ⟨by ring, ih⟩

lemma maxed_self (x : List Capacity) :
    AmountDims.update_to_maxed x x = x := by
  induction x with
  | nil => rfl
  | cons a xs ih =>
    simp only [AmountDims.update_to_maxed, List.zipWith_cons_cons,
      List.cons.injEq] at *
    exact ⟨max_self a, ih⟩

lemma sub_self_zero (x : List Capacity) :
    AmountDims.sub x x = AmountDims.set_zero x := by
  induction x with
  | nil => rfl
  | cons a xs ih =>
    simp only [AmountDims.sub, AmountDims.set_zero, List.zipWith_cons_cons,
      List.map_cons, List.cons.injEq] at *
    exact ⟨by ring, ih⟩

lemma maxed_getD (x y : List Capacity) (h : x.length = y.length)
    (i : Nat) (hi : i < x.length) :
    (AmountDims.update_to_maxed x y).getD i 0 =
      max (x.getD i 0) (y.getD i 0) := by
  induction x generalizing y i with
  | nil => simp at hi
  | cons a xs ih =>
    cases y with
    | nil => simp at h
    | cons b ys =>
      have hxy : xs.length = ys.length := by simpa using h
      cases i with
      | zero => simp [AmountDims.update_to_maxed]
      | succ i2 =>
        have hi2 : i2 < xs.length := by
          simp only [List.length_cons] at hi
          omega
        simp only [AmountDims.update_to_maxed, List.zipWith_cons_cons,
          List.getD_cons_succ]
        exact ih ys hxy i2 hi2

lemma length_maxed (x y : List Capacity) (h : x.length = y.length) :
    (AmountDims.update_to_maxed x y).length = x.length := by
  simp [AmountDims.update_to_maxed, h]

end AmountFacts

/-- C1: for two Dimensioned amounts of the same length n, is_less is
lexicographic: scanning dimensions 0 to n-2 in index order, the first
index where the operands differ decides the result by a strict
less-than; if dimensions 0 to n-2 are all equal the result is the
strict comparison of the last dimensions; and on length 0 the result is
always false. -/
theorem claim_C1 (a b : List Capacity) (h : a.length = b.length) :
    (a.length = 0 → AmountDims.is_less a b = false)
    ∧ (∀ i, i + 1 < a.length → (∀ j, j < i → a.getD j 0 = b.getD j 0) →
        a.getD i 0 ≠ b.getD i 0 →
        AmountDims.is_less a b = decide (a.getD i 0 < b.getD i 0))
    ∧ (0 < a.length → (∀ j, j + 1 < a.length → a.getD j 0 = b.getD j 0) →
        AmountDims.is_less a b =
          decide (a.getD (a.length - 1) 0 < b.getD (b.length - 1) 0)) := by
  refine ⟨?_, ?_, ?_⟩
  · intro h0
    have ha : a = [] := List.length_eq_zero.mp h0
    subst ha
    cases b <;> rfl
  · intro i hi hpre hne
    exact AmountFacts.is_less_first_diff a b h i hi hpre hne
  · intro hpos hpre
    have hne : a ≠ [] := by
      intro hcontra
      subst hcontra
      simp at hpos
    rw [AmountFacts.is_less_last a b h hne hpre, h]

/-- Witness for C1 at the spec example: a = [2,5,1], b = [2,3,9], where
dimension 1 is the first differing index and 5 > 3 decides false. -/
theorem claim_C1_witness :
    AmountDims.is_less [(2 : Int), 5, 1] [(2 : Int), 3, 9]
      = decide (([(2 : Int), 5, 1].getD 1 0) < ([(2 : Int), 3, 9].getD 1 0)) :=
  (claim_C1 [2, 5, 1] [2, 3, 9] (by decide)).2.1 1 (by decide) (by decide)
    (by decide)

/-- C2: on two amounts of the same shape the wrapper comparison le
returns a value, and it returns true exactly when is_less or is_equal
on the owned variants returns true. -/
theorem claim_C2 (a b : Amount)
    (h : AmountImpl.sameShape a.m_impl b.m_impl = true) :
    (Amount.le a b).isSome = true
    ∧ (Amount.le a b = some true ↔
        (AmountImpl.is_less a.m_impl b.m_impl = some true
          ∨ AmountImpl.is_equal a.m_impl b.m_impl = some true)) := by
  rcases a with ⟨ia⟩
  rcases b with ⟨ib⟩
  cases ia with
  | empty =>
    cases ib with
    | empty => simp [Amount.le, AmountImpl.is_less, AmountImpl.is_equal]
    | dims y => simp [AmountImpl.sameShape] at h
  | dims x =>
    cases ib with
    | empty => simp [AmountImpl.sameShape] at h
    | dims y =>
      have hlen : x.length = y.length := by
        simpa [AmountImpl.sameShape] using h
      cases hlt : AmountDims.is_less x y with
      | true =>
        simp [Amount.le, AmountImpl.is_less, AmountImpl.is_equal, hlen, hlt]
      | false =>
        simp [Amount.le, AmountImpl.is_less, AmountImpl.is_equal, hlen, hlt]

/-- Witness for C2 at the spec example: a = b = [1,2], where le holds. -/
theorem claim_C2_witness :
    (Amount.le (Amount.ofElems [1, 2]) (Amount.ofElems [1, 2])).isSome = true :=
  (claim_C2 (Amount.ofElems [1, 2]) (Amount.ofElems [1, 2]) (by decide)).1

/-- C3: every binary operation on two Dimensioned amounts of different
lengths fails its length assertion, modelled as the none result, before
producing any value: nothing is truncated or padded. -/
theorem claim_C3 (x y : List Capacity) (h : x.length ≠ y.length) :
    AmountImpl.is_less (AmountImpl.dims x) (AmountImpl.dims y) = none
    ∧ AmountImpl.is_equal (AmountImpl.dims x) (AmountImpl.dims y) = none
    ∧ AmountImpl.add (AmountImpl.dims x) (AmountImpl.dims y) = none
    ∧ AmountImpl.sub (AmountImpl.dims x) (AmountImpl.dims y) = none
    ∧ AmountImpl.update_to_maxed (AmountImpl.dims x) (AmountImpl.dims y)
        = none := by
  simp [AmountImpl.is_less, AmountImpl.is_equal, AmountImpl.add,
    AmountImpl.sub, AmountImpl.update_to_maxed, h]

/-- Witness for C3 at the spec example: a 2-dimensional amount against
a 3-dimensional amount. -/
theorem claim_C3_witness :
    ([(0 : Int), 0].length ≠ [(0 : Int), 0, 0].length)
    ∧ AmountImpl.is_less (AmountImpl.dims [(0 : Int), 0])
        (AmountImpl.dims [(0 : Int), 0, 0]) = none
    ∧ AmountImpl.is_equal (AmountImpl.dims [(0 : Int), 0])
        (AmountImpl.dims [(0 : Int), 0, 0]) = none
    ∧ AmountImpl.add (AmountImpl.dims [(0 : Int), 0])
        (AmountImpl.dims [(0 : Int), 0, 0]) = none
    ∧ AmountImpl.sub (AmountImpl.dims [(0 : Int), 0])
        (AmountImpl.dims [(0 : Int), 0, 0]) = none
    ∧ AmountImpl.update_to_maxed (AmountImpl.dims [(0 : Int), 0])
        (AmountImpl.dims [(0 : Int), 0, 0]) = none :=
  ⟨by decide, claim_C3 [0, 0] [0, 0, 0] (by decide)⟩

/-- C4: the free operators are a copy of the left operand combined via
the compound assignments, and on equal shapes the round trip holds:
(a + b) - b is equal to a. -/
theorem claim_C4 (a b : Amount)
    (h : AmountImpl.sameShape a.m_impl b.m_impl = true) :
    Amount.addOp a b = Amount.addAssign a b
    ∧ Amount.subOp a b = Amount.subAssign a b
    ∧ ∃ s d, Amount.addOp a b = some s ∧ Amount.subOp s b = some d
        ∧ Amount.beq d a = some true := by
  refine ⟨rfl, rfl, ?_⟩
  rcases a with ⟨ia⟩
  rcases b with ⟨ib⟩
  cases ia with
  | empty =>
    cases ib with
    | empty => exact ⟨⟨AmountImpl.empty⟩, ⟨AmountImpl.empty⟩, rfl, rfl, rfl⟩
    | dims y => simp [AmountImpl.sameShape] at h
  | dims x =>
    cases ib with
    | empty => simp [AmountImpl.sameShape] at h
    | dims y =>
      have hlen : x.length = y.length := by
        simpa [AmountImpl.sameShape] using h
      refine ⟨⟨AmountImpl.dims (AmountDims.add x y)⟩, ⟨AmountImpl.dims x⟩,
        ?_, ?_, ?_⟩
      · simp [Amount.addOp, Amount.addAssign, AmountImpl.add, hlen]
      · simp [Amount.subOp, Amount.subAssign, AmountImpl.sub,
          AmountFacts.length_add x y hlen, hlen,
          AmountFacts.add_sub_cancel x y hlen]
      · simp [Amount.beq, AmountImpl.is_equal, AmountFacts.is_equal_refl]

/-- Witness for C4 at the spec example: a = [2,5,1], b = [2,3,9]. -/
theorem claim_C4_witness :
    ∃ s d,
      Amount.addOp (Amount.ofElems [2, 5, 1]) (Amount.ofElems [2, 3, 9]) = some s
      ∧ Amount.subOp s (Amount.ofElems [2, 3, 9]) = some d
      ∧ Amount.beq d (Amount.ofElems [2, 5, 1]) = some true :=
  (claim_C4 (Amount.ofElems [2, 5, 1]) (Amount.ofElems [2, 3, 9])
    (by decide)).2.2

/-- C5: get_zero keeps the variant and the dimensionality, every
dimension of the result is zero, the receiver is untouched (value
semantics in this embedding), and adding an amount to its own zero
gives back an amount equal to it. -/
theorem claim_C5 (a : Amount) :
    AmountImpl.sameShape (Amount.get_zero a).m_impl a.m_impl = true
    ∧ (∀ z, (Amount.get_zero a).m_impl = AmountImpl.dims z → ∀ c ∈ z, c = 0)
    ∧ ∃ s, Amount.addOp (Amount.get_zero a) a = some s
        ∧ Amount.beq s a = some true := by
  rcases a with ⟨ia⟩
  cases ia with
  | empty =>
    refine ⟨rfl, ?_, ⟨AmountImpl.empty⟩, rfl, rfl⟩
    intro z hz
    simp [Amount.get_zero, AmountImpl.set_zero] at hz
  | dims x =>
    refine ⟨?_, ?_, ⟨AmountImpl.dims x⟩, ?_, ?_⟩
    · simp [Amount.get_zero, AmountImpl.set_zero, AmountImpl.sameShape,
        AmountDims.set_zero]
    · intro z hz
      simp only [Amount.get_zero, AmountImpl.set_zero, AmountImpl.dims.injEq]
        at hz
      intro c hc
      rw [← hz] at hc
      rcases List.mem_map.mp hc with ⟨d, hd, hdc⟩
      exact hdc.symm
    · simp only [Amount.addOp, Amount.addAssign, Amount.get_zero,
        AmountImpl.set_zero, AmountImpl.add]
      rw [if_pos (show (AmountDims.set_zero x).length = x.length by
        simp [AmountDims.set_zero])]
      rw [AmountFacts.zero_add_self]
      rfl
    · simp [Amount.beq, AmountImpl.is_equal, AmountFacts.is_equal_refl]

/-- Witness for C5 at a concrete amount. -/
theorem claim_C5_witness :
    AmountImpl.sameShape (Amount.get_zero (Amount.ofElems [4, 7])).m_impl
      (Amount.ofElems [4, 7]).m_impl = true :=
  (claim_C5 (Amount.ofElems [4, 7])).1

/-- C6: maxing an amount with itself changes nothing, and on two
Dimensioned amounts of equal length update_to_maxed returns the vector
whose every index holds the maximum of the two operand values there. -/
theorem claim_C6 (a : Amount) (x y : List Capacity)
    (h : x.length = y.length) :
    Amount.update_to_maxed a a = some a
    ∧ ∃ r, AmountImpl.update_to_maxed (AmountImpl.dims x) (AmountImpl.dims y)
          = some (AmountImpl.dims r)
        ∧ r.length = x.length
        ∧ ∀ i, i < x.length → r.getD i 0 = max (x.getD i 0) (y.getD i 0) := by
  constructor
  · rcases a with ⟨ia⟩
    cases ia with
    | empty => rfl
    | dims l =>
      simp [Amount.update_to_maxed, AmountImpl.update_to_maxed,
        AmountFacts.maxed_self]
  · exact ⟨AmountDims.update_to_maxed x y,
      by simp [AmountImpl.update_to_maxed, h],
      AmountFacts.length_maxed x y h,
      fun i hi => AmountFacts.maxed_getD x y h i hi⟩

/-- Witness for C6 at the spec example: maxing [2,5,1] with itself is
the identity, with [2,5,1] and [2,3,9] as the equal-length pair. -/
theorem claim_C6_witness :
    Amount.update_to_maxed (Amount.ofElems [2, 5, 1]) (Amount.ofElems [2, 5, 1])
      = some (Amount.ofElems [2, 5, 1]) :=
  (claim_C6 (Amount.ofElems [2, 5, 1]) [2, 5, 1] [2, 3, 9] (by decide)).1

/-- C7: a default-constructed Amount holds the Empty variant, two Empty
amounts are equal and never strictly ordered, and add, sub,
update_to_maxed and set_zero leave them unchanged. -/
theorem claim_C7 (a b : Amount) (ha : a.m_impl = AmountImpl.empty)
    (hb : b.m_impl = AmountImpl.empty) :
    Amount.default.m_impl = AmountImpl.empty
    ∧ Amount.beq a b = some true
    ∧ Amount.ll a b = some false ∧ Amount.ll b a = some false
    ∧ Amount.addAssign a b = some a
    ∧ Amount.subAssign a b = some a
    ∧ Amount.update_to_maxed a b = some a
    ∧ AmountImpl.set_zero a.m_impl = a.m_impl := by
  rcases a with ⟨ia⟩
  rcases b with ⟨ib⟩
  cases ia with
  | dims l => simp at ha
  | empty =>
    cases ib with
    | dims l => simp at hb
    | empty => exact ⟨rfl, rfl, rfl, rfl, rfl, rfl, rfl, rfl⟩

/-- Witness for C7 on two default-constructed amounts. -/
theorem claim_C7_witness :
    Amount.beq Amount.default Amount.default = some true :=
  (claim_C7 Amount.default Amount.default rfl rfl).2.1

/-- C8: construction from a dimension count n gives a Dimensioned
amount of length n with every value zero, and construction from an
explicit sequence gives a Dimensioned amount holding exactly that
sequence. -/
theorem claim_C8 (n : Nat) (l : List Capacity) :
    (∃ z, (Amount.ofSize n).m_impl = AmountImpl.dims z
      ∧ z.length = n ∧ ∀ c ∈ z, c = 0)
    ∧ (Amount.ofElems l).m_impl = AmountImpl.dims l := by
  refine ⟨⟨AmountDims.ofSize n, rfl, ?_, ?_⟩, rfl⟩
  · simp [AmountDims.ofSize]
  · intro c hc
    simpa [AmountDims.ofSize] using List.eq_of_mem_replicate hc

/-- Witness for C8 at concrete inputs. -/
theorem claim_C8_witness :
    (Amount.ofElems [3, 1, 4]).m_impl = AmountImpl.dims [3, 1, 4] :=
  (claim_C8 2 [3, 1, 4]).2

/-- C9: on two Dimensioned amounts of equal length exactly one of
is_less one way, is_less the other way, and is_equal holds. -/
theorem claim_C9 (x y : List Capacity) (h : x.length = y.length) :
    (AmountDims.is_less x y = true ∨ AmountDims.is_less y x = true
      ∨ AmountDims.is_equal x y = true)
    ∧ ¬(AmountDims.is_less x y = true ∧ AmountDims.is_less y x = true)
    ∧ ¬(AmountDims.is_less x y = true ∧ AmountDims.is_equal x y = true)
    ∧ ¬(AmountDims.is_less y x = true ∧ AmountDims.is_equal x y = true) := by
  by_cases hxy : x = y
  · subst hxy
    simp [AmountFacts.is_less_irrefl, AmountFacts.is_equal_refl]
  · have hflip := AmountFacts.is_less_flip x y h hxy
    have heq : AmountDims.is_equal x y = false :=
      Bool.eq_false_iff.mpr
        (fun hb => hxy ((AmountFacts.is_equal_iff x y h).mp hb))
    cases hlt : AmountDims.is_less x y with
    | true =>
      rw [hlt] at hflip
      simp [hlt, hflip, heq]
    | false =>
      rw [hlt] at hflip
      simp [hlt, hflip, heq]

/-- Witness for C9 at a concrete strictly ordered pair. -/
theorem claim_C9_witness :
    AmountDims.is_less [(1 : Int), 2] [(1 : Int), 3] = true
    ∨ AmountDims.is_less [(1 : Int), 3] [(1 : Int), 2] = true
    ∨ AmountDims.is_equal [(1 : Int), 2] [(1 : Int), 3] = true :=
  (claim_C9 [1, 2] [1, 3] rfl).1

/-- C10: subtracting any amount from itself succeeds and yields exactly
the zero amount of the same shape returned by get_zero, for the Empty
variant and the Dimensioned variant alike. -/
theorem claim_C10 (a : Amount) :
    ∃ d, Amount.subOp a a = some d
      ∧ d = Amount.get_zero a
      ∧ Amount.beq d (Amount.get_zero a) = some true := by
  rcases a with ⟨ia⟩
  cases ia with
  | empty => exact ⟨⟨AmountImpl.empty⟩, rfl, rfl, rfl⟩
  | dims x =>
    refine ⟨⟨AmountImpl.dims (AmountDims.set_zero x)⟩, ?_, rfl, ?_⟩
    · simp [Amount.subOp, Amount.subAssign, AmountImpl.sub,
        AmountFacts.sub_self_zero]
    · simp [Amount.beq, Amount.get_zero, AmountImpl.set_zero,
        AmountImpl.is_equal, AmountFacts.is_equal_refl]

/-- Witness for C10 at a concrete amount. -/
theorem claim_C10_witness :
    ∃ d, Amount.subOp (Amount.ofElems [3, 4]) (Amount.ofElems [3, 4]) = some d
      ∧ d = Amount.get_zero (Amount.ofElems [3, 4])
      ∧ Amount.beq d (Amount.get_zero (Amount.ofElems [3, 4])) = some true :=
  claim_C10 (Amount.ofElems [3, 4])
